import Mathlib

/-!
Shallow embedding of the postfix-tlspol policy daemon (Go sources:
`src/internal/server.go` and the earlier single-file daemon in
`src/unnamed/part_001`), together with theorems settling the frozen
claims about its specification.

DNS transport details (wire format, EDNS0, `dns.Fqdn`) are abstracted
into oracles: a `DNSWorld` maps a query name to `none` (transport
error) or to the `DNSMsg` the trusted resolver returned.  The HTTPS
fetch is likewise an oracle from URL to an optional status and body.
Go strings are byte slices; string surgery is modelled on character
lists (`String.data`).

Layout: all definitions first, then the theorems for claims C1-C10
with their helper lemmas, witnesses and counterexamples.
-/

namespace TlsPol

/-- Resource record as seen by the evaluators: the Go code type-switches
on `*dns.MX`, `*dns.TLSA` and `*dns.TXT`; every other record type is
ignored, which the `other` constructor stands for. -/
inductive RR where
  | mx (name : String) (ttl : Nat)
  | tlsa (ttl : Nat)
  | txt (strs : List String)
  | other
deriving DecidableEq, Repr

/-- DNS response as used by the code: `r.Rcode`, `r.MsgHdr.AuthenticatedData`
and the answer section `r.Answer`. -/
structure DNSMsg where
  rcode : Nat
  ad : Bool
  answer : List RR
deriving DecidableEq, Repr

/-- Environment of one evaluation: the answers the trusted resolver gives
to MX, TLSA and TXT queries.  `none` models a transport error
(`client.Exchange` returning `err != nil`). -/
structure DNSWorld where
  mxResp : String → Option DNSMsg
  tlsaResp : String → Option DNSMsg
  txtResp : String → Option DNSMsg

/-- Go `RcodeSuccess` (NOERROR). -/
def rcodeSuccess : Nat := 0

/-- Go `RcodeNameError` (NXDOMAIN). -/
def rcodeNameError : Nat := 3

/-- Translation of `findMin` (src/unnamed/part_001:427-439): zero on an
empty slice, otherwise the least element. -/
def findMin : List Nat → Nat
  | [] => 0
  | a :: rest => (a :: rest).foldl (fun m v => if v < m then v else m) a

/-- Translation of `getMXRecords` (src/unnamed/part_001:267-295).
Returns the MX target names and the minimum MX TTL; records are only
collected when the response has `AuthenticatedData` set. -/
def getMXRecords (w : DNSWorld) (domain : String) : Except String (List String × Nat) :=
  match w.mxResp domain with
  | none => .error "transport"
  | some r =>
    if r.rcode ≠ rcodeSuccess ∧ r.rcode ≠ rcodeNameError then .error "DNS error"
    else
      let pairs := if r.ad then
          r.answer.filterMap (fun a => match a with
            | .mx n t => some (n, t)
            | _ => none)
        else []
      .ok (pairs.map Prod.fst, findMin (pairs.map Prod.snd))

/-- Translation of the Go struct `ResultWithTtl` (src/unnamed/part_001:297-301). -/
structure ResultWithTtl where
  result : Bool
  ttl : Nat
  err : Option String
deriving DecidableEq, Repr

/-- Translation of `checkTLSA` (src/unnamed/part_001:303-330).  Note the
source checks `len(r.Answer) == 0` before the rcode, and returns the TTL
of the first TLSA record of an authenticated non-empty answer. -/
def checkTLSA (w : DNSWorld) (mx : String) : ResultWithTtl :=
  match w.tlsaResp ("_25._tcp." ++ mx) with
  | none => ⟨false, 0, some "transport"⟩
  | some r =>
    if r.answer.length = 0 then ⟨false, 0, none⟩
    else if r.rcode ≠ rcodeSuccess ∧ r.rcode ≠ rcodeNameError then ⟨false, 0, some "DNS error"⟩
    else if r.ad then
      match r.answer.findSome? (fun a => match a with
        | .tlsa t => some t
        | _ => none) with
      | some t => ⟨true, t, none⟩
      | none => ⟨false, 0, none⟩
    else ⟨false, 0, none⟩

/-- Translation of `checkDANE` (src/unnamed/part_001:225-265).  The TLSA
fan-out is joined deterministically in MX order; the collection loop's
result (TEMP on any error, conjunction of `Result`, minimum TTL) does not
depend on channel arrival order. -/
def checkDANE (w : DNSWorld) (domain : String) : String × Nat :=
  match getMXRecords w domain with
  | .error _ => ("TEMP", 0)
  | .ok (mxRecords, ttl) =>
    if mxRecords.length = 0 then ("", 0)
    else
      let results := mxRecords.map (checkTLSA w)
      if results.any (fun r => r.err.isSome) then ("TEMP", 0)
      else
        let ttls := ttl :: results.map ResultWithTtl.ttl
        if results.all ResultWithTtl.result then ("dane", findMin ttls) else ("", findMin ttls)

/-- Characterization used by claim C3: the TLSA response for one MX is a
non-empty authenticated TLSA set — answer present and non-empty, rcode
NOERROR or NXDOMAIN, AD set, and at least one TLSA record among the
answers. -/
def hasAuthTLSA (resp : Option DNSMsg) : Bool :=
  match resp with
  | none => false
  | some r =>
    !r.answer.isEmpty &&
    (r.rcode == rcodeSuccess || r.rcode == rcodeNameError) &&
    r.ad &&
    r.answer.any (fun a => match a with | .tlsa _ => true | _ => false)

/-- Go `strings.TrimSpace` on a character list: drop whitespace from both
ends. -/
def trimChars (l : List Char) : List Char :=
  ((l.dropWhile Char.isWhitespace).reverse.dropWhile Char.isWhitespace).reverse

/-- Go `strings.HasPrefix s p` on character lists: `hasPref s p` is true
when `p` is an initial segment of `s`. -/
def hasPref : List Char → List Char → Bool
  | _, [] => true
  | [], _ :: _ => false
  | a :: as, b :: bs => a == b && hasPref as bs

/-- Go `strings.Split` on a single-character separator. -/
def splitChar (sep : Char) : List Char → List (List Char)
  | [] => [[]]
  | c :: rest =>
    match splitChar sep rest with
    | [] => [[]]
    | h :: t => if c = sep then [] :: h :: t else (c :: h) :: t

/-- Go `strings.Join` with a single-character separator. -/
def joinChar (sep : Char) (ls : List (List Char)) : List Char :=
  List.intercalate [sep] ls

/-- Translation of `checkMTASTSRecord` (src/unnamed/part_001:354-382);
`strings.HasPrefix` is modelled by `hasPref` on the character lists. -/
def checkMTASTSRecord (w : DNSWorld) (domain : String) : Except String Bool :=
  match w.txtResp ("_mta-sts." ++ domain) with
  | none => .error "DNS error"
  | some r =>
    if r.rcode ≠ rcodeSuccess ∧ r.rcode ≠ rcodeNameError then .error "DNS error"
    else if r.answer.length = 0 then .ok false
    else .ok (r.answer.any (fun a => match a with
      | .txt strs => strs.any (fun s => hasPref s.data "v=STSv1".data)
      | _ => false))

/-- Translation of Go `strconv.ParseUint(s, 10, 32)` restricted to what the
policy parser needs: all-digit non-empty strings below `2^32` succeed. -/
def parseUint32 (s : List Char) : Option Nat :=
  if s.length ≠ 0 ∧ s.all Char.isDigit then
    let n := s.foldl (fun a c => a * 10 + (c.toNat - 48)) 0
    if n < 4294967296 then some n else none
  else none

/-- State accumulated by the line loop of `generateTlsPolicyMap`. -/
structure StsParse where
  mode : List Char
  mxServers : List (List Char)
  maxAge : Nat
deriving DecidableEq, Repr

/-- Translation of the loop body of `generateTlsPolicyMap`
(src/unnamed/part_001:389-408): three independent prefix tests; an
`mx:` pattern starting with `*.` loses only its first character (the
asterisk — `mxServer[1:]` keeps the dot), and duplicates are skipped. -/
def stsLine (st : StsParse) (line : List Char) : StsParse :=
  let st :=
    if hasPref line "mode:".data then
      { st with mode := trimChars ((splitChar ':' line).getD 1 []) }
    else st
  let st :=
    if hasPref line "max_age:".data then
      match parseUint32 (trimChars ((splitChar ':' line).getD 1 [])) with
      | some age => { st with maxAge := age }
      | none => st
    else st
  if hasPref line "mx:".data then
    let mxServer := trimChars ((splitChar ':' line).getD 1 [])
    let mxServer := if hasPref mxServer "*.".data then mxServer.drop 1 else mxServer
    if st.mxServers.contains mxServer then st
    else { st with mxServers := st.mxServers ++ [mxServer] }
  else st

/-- Parse phase of `generateTlsPolicyMap` (src/unnamed/part_001:385-408):
trim the document, split it into lines, and fold the line loop. -/
def stsParse (policy : List Char) : StsParse :=
  (splitChar '\n' (trimChars policy)).foldl stsLine ⟨[], [], 0⟩

/-- Translation of `generateTlsPolicyMap` (src/unnamed/part_001:384-416):
on `mode = enforce` render the Postfix directive, otherwise no policy;
the parsed `max_age` is returned either way. -/
def generateTlsPolicyMap (policy : String) : String × Nat :=
  let st := stsParse policy.data
  if st.mode = "enforce".data then
    (String.mk ("secure match=".data ++ joinChar ':' st.mxServers ++ " servername=hostname".data),
     st.maxAge)
  else
    ("", st.maxAge)

/-- Lines produced by `bufio.Scanner` with `ScanLines`: split on
newline, drop the final empty token caused by a trailing newline, and
strip one trailing carriage return per line. -/
def scanLines (l : List Char) : List (List Char) :=
  let raw := splitChar '\n' l
  let raw := if raw.getLast? = some [] then raw.dropLast else raw
  raw.map (fun ln => if ln.getLast? = some '\r' then ln.dropLast else ln)

/-- Body rebuilt by the scanner loop of `checkMTASTS`
(src/unnamed/part_001:346-350): each scanned line with a newline
appended. -/
def buildPolicyText (body : List Char) : List Char :=
  (scanLines body).foldl (fun acc ln => acc ++ ln ++ ['\n']) []

/-- Translation of `checkMTASTS` (src/unnamed/part_001:332-352), with the
HTTPS fetch abstracted into an oracle from URL to `none` (transport
error) or status code and body. -/
def checkMTASTS (w : DNSWorld) (fetch : String → Option (Nat × String)) (domain : String) :
    String × Nat :=
  match checkMTASTSRecord w domain with
  | .error _ => ("TEMP", 0)
  | .ok false => ("", 0)
  | .ok true =>
    match fetch ("https://mta-sts." ++ domain ++ "/.well-known/mta-sts.txt") with
    | none => ("TEMP", 0)
    | some (status, body) =>
      if status ≠ 200 then ("TEMP", 0)
      else generateTlsPolicyMap (String.mk (buildPolicyText body.data))

/-- C2 witness: a concrete world whose MX answer has records but AD unset. -/
def c2World : DNSWorld where
  mxResp := fun q =>
    if q = "noad.example" then some ⟨0, false, [RR.mx "mx.noad.example" 3600]⟩ else none
  tlsaResp := fun q =>
    if q = "_25._tcp.mx.noad.example" then some ⟨0, true, [RR.tlsa 300]⟩ else none
  txtResp := fun _ => none

/-- C3 witness world: one authenticated MX with an authenticated TLSA set. -/
def c3World : DNSWorld where
  mxResp := fun q =>
    if q = "dane.example" then some ⟨0, true, [RR.mx "mx.dane.example" 3600]⟩ else none
  tlsaResp := fun q =>
    if q = "_25._tcp.mx.dane.example" then some ⟨0, true, [RR.tlsa 300]⟩ else none
  txtResp := fun _ => none

/-- C5 counterexample world: MX resolves with AD, but the TLSA response is
SERVFAIL (rcode 2) with an empty answer section. -/
def c5World : DNSWorld where
  mxResp := fun q =>
    if q = "bad.example" then some ⟨0, true, [RR.mx "mx.bad.example" 3600]⟩ else none
  tlsaResp := fun q =>
    if q = "_25._tcp.mx.bad.example" then some ⟨2, true, []⟩ else none
  txtResp := fun _ => none

/-- C5 amended witness world: the TLSA response has a bad rcode and a
non-empty answer section. -/
def c5WitnessWorld : DNSWorld where
  mxResp := fun q =>
    if q = "t.example" then some ⟨0, true, [RR.mx "mx.t.example" 600]⟩ else none
  tlsaResp := fun q =>
    if q = "_25._tcp.mx.t.example" then some ⟨2, true, [RR.tlsa 300]⟩ else none
  txtResp := fun _ => none

/-- Helper: the entry an `mx:` line contributes — trimmed pattern, with
the asterisk of a leading `*.` dropped. -/
def stsEntry (line : List Char) : List Char :=
  let m := trimChars ((splitChar ':' line).getD 1 [])
  if hasPref m "*.".data then m.drop 1 else m

/-- C6 witness world: the `_mta-sts` TXT record exists and the fetch
succeeds with an enforce-mode policy. -/
def c6World : DNSWorld where
  mxResp := fun _ => none
  tlsaResp := fun _ => none
  txtResp := fun q =>
    if q = "_mta-sts.sts.example" then some ⟨0, true, [RR.txt ["v=STSv1; id=1"]]⟩ else none

/-- C6 witness fetch oracle. -/
def c6Fetch : String → Option (Nat × String) := fun url =>
  if url = "https://mta-sts.sts.example/.well-known/mta-sts.txt" then
    some (200, "version: STSv1\nmode: enforce\nmx: mx1.sts.example\nmax_age: 604800\n")
  else none

/-- Translation of the Go struct `PolicyResult` (src/internal/server.go:414-419). -/
structure PolicyResult where
  isDane : Bool
  policy : String
  rpt : String
  ttl : Nat
deriving DecidableEq, Repr

/-- Go `CACHE_NOTFOUND_TTL` (src/internal/server.go:42). -/
def CACHE_NOTFOUND_TTL : Nat := 600

/-- Go `CACHE_MIN_TTL` (src/internal/server.go:43). -/
def CACHE_MIN_TTL : Nat := 180

/-- Translation of the collection loop of `queryDomain`
(src/internal/server.go:438-455) over the results in their arrival
order: skip empty policies, take the fields of every non-empty one, and
break as soon as the non-empty one came from the DANE side. -/
def mergeLoop : String → String → Nat → List PolicyResult → String × String × Nat
  | p, rp, t, [] => (p, rp, t)
  | p, rp, t, r :: rest =>
    if r.policy = "" then mergeLoop p rp t rest
    else if r.isDane then (r.policy, r.rpt, r.ttl)
    else mergeLoop r.policy r.rpt r.ttl rest

/-- Translation of `queryDomain` (src/internal/server.go:421-464) given
the two evaluator results.  The DANE goroutine sends
`{IsDane: true, Policy: dPol, Rpt: "", Ttl: dTtl}`, the MTA-STS
goroutine `{IsDane: false, Policy: msPol, Rpt: msRpt, Ttl: msTtl}`;
`daneFirst` selects which of the two channel sends is received first.
The final lines apply the TTL normalization of lines 457-461. -/
def queryDomain (daneFirst : Bool) (dPol : String) (dTtl : Nat)
    (msPol msRpt : String) (msTtl : Nat) : String × String × Nat :=
  let dRes : PolicyResult := ⟨true, dPol, "", dTtl⟩
  let mRes : PolicyResult := ⟨false, msPol, msRpt, msTtl⟩
  let arrivals := if daneFirst then [dRes, mRes] else [mRes, dRes]
  let out := mergeLoop "" "" CACHE_NOTFOUND_TTL arrivals
  let policy := out.1
  let report := out.2.1
  let ttl := out.2.2
  let ttl :=
    if policy = "" then CACHE_NOTFOUND_TTL
    else if policy = "TEMP" ∨ ttl < CACHE_MIN_TTL then CACHE_MIN_TTL
    else ttl
  (policy, report, ttl)

/-- UTF-8 encoding of one character (Go `[]byte(string)`). -/
def charUtf8 (c : Char) : List Nat :=
  let n := c.toNat
  if n < 128 then [n]
  else if n < 2048 then [192 + n / 64, 128 + n % 64]
  else if n < 65536 then [224 + n / 4096, 128 + n / 64 % 64, 128 + n % 64]
  else [240 + n / 262144, 128 + n / 4096 % 64, 128 + n / 64 % 64, 128 + n % 64]

/-- Byte sequence of a string (Go `[]byte(domain)`). -/
def strBytes (s : String) : List Nat := s.data.flatMap charUtf8

/-- Right rotation of a 32-bit word. -/
def rotr32 (n x : Nat) : Nat := x / 2 ^ n + x % 2 ^ n * 2 ^ (32 - n)

/-- SHA-256 message-schedule sigma-0. -/
def ssig0 (x : Nat) : Nat := rotr32 7 x ^^^ rotr32 18 x ^^^ x / 8

/-- SHA-256 message-schedule sigma-1. -/
def ssig1 (x : Nat) : Nat := rotr32 17 x ^^^ rotr32 19 x ^^^ x / 1024

/-- SHA-256 compression Sigma-0. -/
def bsig0 (x : Nat) : Nat := rotr32 2 x ^^^ rotr32 13 x ^^^ rotr32 22 x

/-- SHA-256 compression Sigma-1. -/
def bsig1 (x : Nat) : Nat := rotr32 6 x ^^^ rotr32 11 x ^^^ rotr32 25 x

/-- SHA-256 choice function (the complement taken within 32 bits). -/
def chFn (e f g : Nat) : Nat := (e &&& f) ^^^ ((e ^^^ 4294967295) &&& g)

/-- SHA-256 majority function. -/
def majFn (a b c : Nat) : Nat := (a &&& b) ^^^ (a &&& c) ^^^ (b &&& c)

/-- SHA-256 round constants (FIPS 180-4), written in decimal. -/
def sha256K : List Nat :=
  [1116352408, 1899447441, 3049323471, 3921009573,
   961987163, 1508970993, 2453635748, 2870763221,
   3624381080, 310598401, 607225278, 1426881987,
   1925078388, 2162078206, 2614888103, 3248222580,
   3835390401, 4022224774, 264347078, 604807628,
   770255983, 1249150122, 1555081692, 1996064986,
   2554220882, 2821834349, 2952996808, 3210313671,
   3336571891, 3584528711, 113926993, 338241895,
   666307205, 773529912, 1294757372, 1396182291,
   1695183700, 1986661051, 2177026350, 2456956037,
   2730485921, 2820302411, 3259730800, 3345764771,
   3516065817, 3600352804, 4094571909, 275423344,
   430227734, 506948616, 659060556, 883997877,
   958139571, 1322822218, 1537002063, 1747873779,
   1955562222, 2024104815, 2227730452, 2361852424,
   2428436474, 2756734187, 3204031479, 3329325298]

/-- SHA-256 initial hash value (FIPS 180-4), written in decimal. -/
def sha256H0 : List Nat :=
  [1779033703, 3144134277, 1013904242, 2773480762,
   1359893119, 2600822924, 528734635, 1541459225]

/-- Fuel-driven list chunking (the fuel is an upper bound on the number of
chunks, so the recursion is structural and kernel-reducible). -/
def chunksOf (n : Nat) : Nat → List Nat → List (List Nat)
  | 0, _ => []
  | _, [] => []
  | fuel + 1, l => l.take n :: chunksOf n fuel (l.drop n)

/-- Big-endian 32-bit word from four bytes. -/
def beWord : List Nat → Nat
  | [a, b, c, d] => ((a * 256 + b) * 256 + c) * 256 + d
  | _ => 0

/-- Big-endian bytes of a 32-bit word. -/
def wordBytes (x : Nat) : List Nat :=
  [x / 16777216 % 256, x / 65536 % 256, x / 256 % 256, x % 256]

/-- Big-endian 64-bit length field of the SHA-256 padding. -/
def lenBytes64 (n : Nat) : List Nat :=
  [n / 2 ^ 56 % 256, n / 2 ^ 48 % 256, n / 2 ^ 40 % 256, n / 2 ^ 32 % 256,
   n / 2 ^ 24 % 256, n / 2 ^ 16 % 256, n / 2 ^ 8 % 256, n % 256]

/-- SHA-256 padding: `0x80`, zeros to 56 mod 64, then the bit length. -/
def sha256pad (msg : List Nat) : List Nat :=
  msg ++ [128] ++ List.replicate ((119 - msg.length % 64) % 64) 0 ++ lenBytes64 (msg.length * 8)

/-- Message-schedule extension; the accumulator holds the words most
recent first. -/
def schedExtend : Nat → List Nat → List Nat
  | 0, acc => acc
  | fuel + 1, acc =>
    let x := (ssig1 (acc.getD 1 0) + acc.getD 6 0 + ssig0 (acc.getD 14 0) + acc.getD 15 0)
      % 4294967296
    schedExtend fuel (x :: acc)

/-- The 64-word message schedule of one 64-byte block. -/
def msgSchedule (block : List Nat) : List Nat :=
  ((schedExtend 48 ((chunksOf 4 block.length block).map beWord).reverse)).reverse

/-- One SHA-256 compression round on the 8-word working state. -/
def sha256Round (st : List Nat) (kw : Nat × Nat) : List Nat :=
  match st with
  | [a, b, c, d, e, f, g, h] =>
    let t1 := (h + bsig1 e + chFn e f g + kw.1 + kw.2) % 4294967296
    let t2 := (bsig0 a + majFn a b c) % 4294967296
    [(t1 + t2) % 4294967296, a, b, c, (d + t1) % 4294967296, e, f, g]
  | other => other

/-- Process one 64-byte block. -/
def processBlock (H : List Nat) (block : List Nat) : List Nat :=
  let st := (sha256K.zip (msgSchedule block)).foldl sha256Round H
  (H.zip st).map (fun p => (p.1 + p.2) % 4294967296)

/-- SHA-256 digest (32 bytes) of a byte sequence. -/
def sha256 (msg : List Nat) : List Nat :=
  let padded := sha256pad msg
  ((chunksOf 64 padded.length padded).foldl processBlock sha256H0).flatMap wordBytes

/-- Upper-case RFC 4648 base32 alphabet. -/
def b32Char (i : Nat) : Char :=
  ("ABCDEFGHIJKLMNOPQRSTUVWXYZ234567".data).getD i 'A'

/-- Go `encoding/base32` group encoder: eight characters from one 5-byte
group (the source's shifts and masks, with `|` on disjoint bit ranges
written as `+`). -/
def goEncGroup (b0 b1 b2 b3 b4 : Nat) : List Char :=
  [b32Char (b0 / 8),
   b32Char ((b0 * 4 + b1 / 64) % 32),
   b32Char (b1 / 2 % 32),
   b32Char ((b1 * 16 + b2 / 16) % 32),
   b32Char ((b2 * 2 + b3 / 128) % 32),
   b32Char (b3 / 4 % 32),
   b32Char ((b3 * 8 + b4 / 32) % 32),
   b32Char (b4 % 32)]

/-- Go `base32.StdEncoding.WithPadding(NoPadding).EncodeToString`: full
5-byte groups yield 8 characters; a final partial group of `r` bytes is
zero-extended and yields `⌈8r/5⌉` characters, with no `=` padding. -/
def goBase32 : List Nat → List Char
  | [] => []
  | [b0] => (goEncGroup b0 0 0 0 0).take 2
  | [b0, b1] => (goEncGroup b0 b1 0 0 0).take 4
  | [b0, b1, b2] => (goEncGroup b0 b1 b2 0 0).take 5
  | [b0, b1, b2, b3] => (goEncGroup b0 b1 b2 b3 0).take 7
  | b0 :: b1 :: b2 :: b3 :: b4 :: rest => goEncGroup b0 b1 b2 b3 b4 ++ goBase32 rest

/-- Bits of one byte, most significant first. -/
def byteBits (b : Nat) : List Bool :=
  [b / 128 % 2 == 1, b / 64 % 2 == 1, b / 32 % 2 == 1, b / 16 % 2 == 1,
   b / 8 % 2 == 1, b / 4 % 2 == 1, b / 2 % 2 == 1, b % 2 == 1]

/-- Value of a bit sequence, most significant first. -/
def bitsVal (l : List Bool) : Nat := l.foldl (fun n b => 2 * n + cond b 1 0) 0

/-- Groups of five bits, the last group zero-padded. -/
def fiveChunks : List Bool → List (List Bool)
  | [] => []
  | [a] => [[a, false, false, false, false]]
  | [a, b] => [[a, b, false, false, false]]
  | [a, b, c] => [[a, b, c, false, false]]
  | [a, b, c, d] => [[a, b, c, d, false]]
  | a :: b :: c :: d :: e :: rest => [a, b, c, d, e] :: fiveChunks rest

/-- Modelled from the spec: "the unpadded upper-case base32 encoding" —
group the bytes' bits MSB-first into 5-bit units (zero-padding the last
unit) and map each unit through the upper-case RFC 4648 alphabet, with
no `=` padding.  This is the specification-level definition compared
against `goBase32` for claim C8. -/
def base32NoPad (bytes : List Nat) : List Char :=
  (fiveChunks (bytes.flatMap byteBits)).map (fun c => b32Char (bitsVal c))

/-- Translation of `getCacheKey` (src/internal/server.go:235-238): the
constant prefix of every cache key, `"TLSPOL-"`, followed by the
unpadded base32 encoding of the SHA-256 digest of the domain's bytes. -/
def getCacheKey (domain : String) : String :=
  "TLSPOL-" ++ String.mk (goBase32 (sha256 (strBytes domain)))

/-- Domain normalization performed by `handleConnection` before any
dispatch or keying (src/internal/server.go:374):
`strings.ToLower(strings.TrimSpace(arg))`. -/
def normalizeDomain (arg : String) : String :=
  String.mk ((trimChars arg.data).map Char.toLower)

/-- Modelled from the spec (§4.A): the netstring `Marshal` function of
`internal/utils/netstring`, which is not under src/ — a frame is
`<len>":"<payload>","` with the length counted in bytes. -/
def nsMarshal (p : String) : String :=
  toString (strBytes p).length ++ ":" ++ p ++ ","

/-- Abstract domain validators: the third-party govalidator functions
`IsIPv4`, `IsIPv6` and `IsDNSName` used by `handleConnection` are
library code outside this repository. -/
structure Validators where
  isIPv4 : String → Bool
  isIPv6 : String → Bool
  isDNSName : String → Bool

/-- Text before the first space and, when a space occurs, the remainder
after it. -/
def breakOnSpace : List Char → List Char × Option (List Char)
  | [] => ([], none)
  | c :: rest =>
    if c = ' ' then ([], some rest)
    else
      let p := breakOnSpace rest
      (c :: p.1, p.2)

/-- Go `strings.SplitN(query, " ", 2)`. -/
def splitN2 (s : String) : List String :=
  match breakOnSpace s.data with
  | (pre, none) => [String.mk pre]
  | (pre, some post) => [String.mk pre, String.mk post]

/-- Go `strings.ToUpper` (the commands are ASCII). -/
def toUpperStr (s : String) : String := String.mk (s.data.map Char.toUpper)

/-- Command of a request frame: the first space-separated token,
upper-cased (src/internal/server.go:357-358). -/
def cmdOf (frame : String) : String := toUpperStr ((splitN2 frame).headD "")

/-- Argument of a request frame: everything after the first space. -/
def argOf (frame : String) : String := (splitN2 frame).getD 1 ""

/-- Outcome of one scanner-loop iteration of `handleConnection`: the
protocol reply written immediately (if any), whether the connection
closes, whether the cache is read or written, the domain handed to
`replyJson`, and the domain, cache key and TLSRPT flag handed to the
resolve-and-cache path. -/
structure FrameOutcome where
  reply : Option String
  closes : Bool
  readsCache : Bool
  writesCache : Bool
  jsonDomain : Option String
  resolveDomain : Option (String × String × Bool)
deriving DecidableEq, Repr

/-- Translation of one iteration of the scanner loop of
`handleConnection` (src/internal/server.go:350-412) up to the dispatch
decision.  `tryCachedPolicy` and `cacheJsonSet` touch the cache only on
the final resolve path and only when Redis is enabled. -/
def handleFrame (v : Validators) (cfgTlsRpt redisDisable : Bool) (frame : String) :
    FrameOutcome :=
  let parts := splitN2 frame
  let cmd := toUpperStr (parts.headD "")
  let withTlsRpt := if cmd = "QUERYWITHTLSRPT" then true else cfgTlsRpt
  if cmd ≠ "QUERYWITHTLSRPT" ∧ cmd ≠ "QUERY" ∧ cmd ≠ "JSON" then
    ⟨some (nsMarshal "PERM "), true, false, false, none, none⟩
  else if parts.length ≠ 2 then
    ⟨some (nsMarshal "NOTFOUND "), false, false, false, none, none⟩
  else
    let domain := normalizeDomain (parts.getD 1 "")
    if cmd = "JSON" then
      ⟨none, false, false, false, some domain, none⟩
    else if v.isIPv4 domain then
      ⟨some (nsMarshal "NOTFOUND "), false, false, false, none, none⟩
    else if v.isIPv6 domain then
      ⟨some (nsMarshal "NOTFOUND "), false, false, false, none, none⟩
    else if hasPref domain.data ".".data ∧ v.isDNSName (String.mk (domain.data.drop 1)) then
      ⟨some (nsMarshal "NOTFOUND "), false, false, false, none, none⟩
    else if ¬ v.isDNSName domain then
      ⟨some (nsMarshal "NOTFOUND "), false, false, false, none, none⟩
    else
      ⟨none, false, !redisDisable, !redisDisable, none,
        some (domain, getCacheKey domain, withTlsRpt)⟩

/-- Modelled from the spec: `PREFETCH_MARGIN` belongs to the prefetcher,
which is not under src/; the spec fixes no value, so it stays a
parameter.  The backend expiry of `cacheJsonSet`
(src/internal/server.go:489) is `data.Ttl + PREFETCH_MARGIN -
rand.Uint32N(60)` seconds, computed in unsigned 32-bit arithmetic. -/
def cacheExpirySeconds (prefetchMargin ttl jitter : Nat) : Nat :=
  ((ttl + prefetchMargin) % 4294967296 + 4294967296 - jitter % 4294967296) % 4294967296

/-- C7 witness validators: reject everything (satisfies the leading-dot
assumption trivially). -/
def vRefuse : Validators where
  isIPv4 := fun _ => false
  isIPv6 := fun _ => false
  isDNSName := fun _ => false

/-- C10 witness validators: accept everything. -/
def vAccept : Validators where
  isIPv4 := fun _ => true
  isIPv6 := fun _ => true
  isDNSName := fun _ => true

/-- Helper: when `checkTLSA` reports no error, its boolean result is the
non-empty-authenticated-TLSA-set predicate on the raw response. -/
theorem checkTLSA_result_characterization (w : DNSWorld) (mx : String)
    (h : (checkTLSA w mx).err = none) :
    (checkTLSA w mx).result = hasAuthTLSA (w.tlsaResp ("_25._tcp." ++ mx)) := by
  rcases hr : w.tlsaResp ("_25._tcp." ++ mx) with _ | r
  · unfold checkTLSA at h
    rw [hr] at h
    simp at h
  · simp only [checkTLSA, hr] at h
    simp only [checkTLSA, hasAuthTLSA, hr]
    by_cases hlen : r.answer.length = 0
    · have hnil : r.answer = [] := List.length_eq_zero.mp hlen
      simp [hlen, hnil]
    · by_cases hrc : r.rcode ≠ rcodeSuccess ∧ r.rcode ≠ rcodeNameError
      · rw [if_neg hlen, if_pos hrc] at h
        simp at h
      · have hrc' : (r.rcode == rcodeSuccess || r.rcode == rcodeNameError) = true := by
          rcases not_and_or.mp hrc with h1 | h1 <;> simp_all
        have hne : r.answer.isEmpty = false := by
          cases hna : r.answer
          · rw [hna] at hlen; simp at hlen
          · simp
        by_cases had : r.ad = true
        · rcases hf : r.answer.findSome? (fun a => match a with
            | RR.tlsa t => some t
            | _ => none) with _ | t
          · have hnone := List.findSome?_eq_none_iff.mp hf
            have hany : (r.answer.any fun a => match a with
                | RR.tlsa _ => true
                | _ => false) = false := by
              refine List.any_eq_false.mpr (fun a hmem => ?_)
              have := hnone a hmem
              cases a <;> simp_all
            simp [hlen, hrc, had, hf, hany]
          · obtain ⟨a, hmem, ha⟩ := List.exists_of_findSome?_eq_some hf
            have hany : (r.answer.any fun a => match a with
                | RR.tlsa _ => true
                | _ => false) = true := by
              refine List.any_eq_true.mpr ⟨a, hmem, ?_⟩
              cases a <;> simp_all
            simp [hlen, hrc, had, hf, hne, hany, hrc']
        · have had' : r.ad = false := by simpa using had
          simp [hlen, hrc, had']

/-- C2: an MX response without the AD flag can never lead to the positive
DANE verdict; if additionally its rcode is NOERROR or NXDOMAIN, the MX
list is empty and the verdict is None (empty policy, TTL 0), not Temp. -/
theorem c2_ad_enforcement (w : DNSWorld) (domain : String) (msg : DNSMsg)
    (hresp : w.mxResp domain = some msg) (had : msg.ad = false) :
    (checkDANE w domain).1 ≠ "dane"
    ∧ ((msg.rcode = rcodeSuccess ∨ msg.rcode = rcodeNameError) →
        getMXRecords w domain = Except.ok ([], 0) ∧ checkDANE w domain = ("", 0)) := by
  by_cases hrc : msg.rcode ≠ rcodeSuccess ∧ msg.rcode ≠ rcodeNameError
  · have hmx : getMXRecords w domain = Except.error "DNS error" := by
      unfold getMXRecords
      rw [hresp]
      simp [hrc]
    constructor
    · unfold checkDANE
      rw [hmx]
      simp
    · intro hok
      rcases hok with h | h <;> exact absurd h (by tauto)
  · have hmx : getMXRecords w domain = Except.ok ([], 0) := by
      unfold getMXRecords
      rw [hresp]
      simp [hrc, had, findMin]
    have hdane : checkDANE w domain = ("", 0) := by
      unfold checkDANE
      rw [hmx]
      simp
    exact ⟨by rw [hdane]; simp, fun _ => ⟨hmx, hdane⟩⟩

/-- C2 witness: at the concrete world, the verdict is None with TTL 0 and
not the positive DANE verdict. -/
theorem c2_ad_enforcement_witness :
    (checkDANE c2World "noad.example").1 ≠ "dane"
    ∧ (getMXRecords c2World "noad.example" = Except.ok ([], 0)
        ∧ checkDANE c2World "noad.example" = ("", 0)) :=
  ⟨(c2_ad_enforcement c2World "noad.example" ⟨0, false, [RR.mx "mx.noad.example" 3600]⟩
      (by decide) (by decide)).1,
   (c2_ad_enforcement c2World "noad.example" ⟨0, false, [RR.mx "mx.noad.example" 3600]⟩
      (by decide) (by decide)).2 (Or.inl (by decide))⟩

/-- C3: with a successful non-empty authenticated MX lookup, any reported
TLSA error yields Temp; with no errors, the verdict is Dane exactly when
every MX target's TLSA response is a non-empty authenticated TLSA set,
and in both the Dane and the None case the TTL is the minimum of the MX
TTL and the TTLs of the individual TLSA results. -/
theorem c3_dane_coverage (w : DNSWorld) (domain : String) (mxs : List String) (mxTtl : Nat)
    (hmx : getMXRecords w domain = Except.ok (mxs, mxTtl)) (hne : mxs ≠ []) :
    ((mxs.map (checkTLSA w)).any (fun r => r.err.isSome) = true →
        checkDANE w domain = ("TEMP", 0))
    ∧ ((mxs.map (checkTLSA w)).all (fun r => r.err == none) = true →
        (((checkDANE w domain).1 = "dane") ↔
          (∀ mx ∈ mxs, hasAuthTLSA (w.tlsaResp ("_25._tcp." ++ mx)) = true))
        ∧ (checkDANE w domain).2
            = findMin (mxTtl :: (mxs.map (checkTLSA w)).map ResultWithTtl.ttl)) := by
  have hlen : ¬ mxs.length = 0 := by
    intro h
    exact hne (List.length_eq_zero.mp h)
  constructor
  · intro hany
    unfold checkDANE
    rw [hmx]
    simp [hlen, hany]
  · intro hall
    have herr : ∀ mx ∈ mxs, (checkTLSA w mx).err = none := by
      intro mx hmem
      have := List.all_eq_true.mp hall _ (List.mem_map_of_mem (checkTLSA w) hmem)
      simpa using this
    have hany : (mxs.map (checkTLSA w)).any (fun r => r.err.isSome) = false := by
      refine List.any_eq_false.mpr (fun r hr => ?_)
      obtain ⟨mx, hmem, hrEq⟩ := List.mem_map.mp hr
      rw [← hrEq]
      simp [herr mx hmem]
    have hiff : ((mxs.map (checkTLSA w)).all ResultWithTtl.result = true) ↔
        (∀ mx ∈ mxs, hasAuthTLSA (w.tlsaResp ("_25._tcp." ++ mx)) = true) := by
      constructor
      · intro h mx hmem
        have := List.all_eq_true.mp h _ (List.mem_map_of_mem _ hmem)
        rw [← checkTLSA_result_characterization w mx (herr mx hmem)]
        exact this
      · intro h
        refine List.all_eq_true.mpr (fun r hr => ?_)
        obtain ⟨mx, hmem, hrEq⟩ := List.mem_map.mp hr
        subst hrEq
        rw [checkTLSA_result_characterization w mx (herr mx hmem)]
        exact h mx hmem
    have hD : checkDANE w domain =
        (if (mxs.map (checkTLSA w)).all ResultWithTtl.result then
            ("dane", findMin (mxTtl :: (mxs.map (checkTLSA w)).map ResultWithTtl.ttl))
          else ("", findMin (mxTtl :: (mxs.map (checkTLSA w)).map ResultWithTtl.ttl))) := by
      unfold checkDANE
      rw [hmx]
      simp [hlen, hany]
    by_cases hres : (mxs.map (checkTLSA w)).all ResultWithTtl.result = true
    · rw [hD, if_pos hres]
      exact ⟨⟨fun _ => hiff.mp hres, fun _ => rfl⟩, rfl⟩
    · rw [hD, if_neg hres]
      refine ⟨⟨fun hcontra => absurd hcontra (by simp), fun hrhs => absurd (hiff.mpr hrhs) hres⟩, rfl⟩

/-- C3 witness: the theorem applied at the concrete world. -/
theorem c3_dane_coverage_witness :
    (((checkDANE c3World "dane.example").1 = "dane") ↔
      (∀ mx ∈ ["mx.dane.example"], hasAuthTLSA (c3World.tlsaResp ("_25._tcp." ++ mx)) = true))
    ∧ (checkDANE c3World "dane.example").2
        = findMin (3600 :: (["mx.dane.example"].map (checkTLSA c3World)).map ResultWithTtl.ttl) :=
  (c3_dane_coverage c3World "dane.example" ["mx.dane.example"] 3600
    (by rfl) (by decide)).2 (by decide)

/-- C5 counterexample: a TLSA response with rcode SERVFAIL (neither NOERROR
nor NXDOMAIN) but an empty answer section produces no error in `checkTLSA`
(the empty-answer check precedes the rcode check), and the whole DANE
evaluation returns None — not Temp — contradicting the claim's
"regardless of whether the response's answer section is empty". -/
theorem c5_counterexample :
    (2 : Nat) ≠ rcodeSuccess ∧ (2 : Nat) ≠ rcodeNameError
    ∧ c5World.tlsaResp "_25._tcp.mx.bad.example" = some ⟨2, true, []⟩
    ∧ (checkTLSA c5World "mx.bad.example").err = none
    ∧ checkDANE c5World "bad.example" = ("", 0) := by decide

/-- C5 amended: a TLSA response with bad rcode reports a DNS error — and
makes the DANE evaluation Temp — only when its answer section is
non-empty; with an empty answer section the result is `{false, 0}` with
no error. -/
theorem c5_amended_dns_error (w : DNSWorld) (domain mx : String) (r : DNSMsg)
    (mxs : List String) (mxTtl : Nat)
    (hr : w.tlsaResp ("_25._tcp." ++ mx) = some r)
    (hrc : r.rcode ≠ rcodeSuccess ∧ r.rcode ≠ rcodeNameError) :
    (r.answer ≠ [] → (checkTLSA w mx).err = some "DNS error")
    ∧ (r.answer = [] → checkTLSA w mx = ⟨false, 0, none⟩)
    ∧ (r.answer ≠ [] → getMXRecords w domain = Except.ok (mxs, mxTtl) → mx ∈ mxs →
        checkDANE w domain = ("TEMP", 0)) := by
  have htlsa : r.answer ≠ [] → checkTLSA w mx = ⟨false, 0, some "DNS error"⟩ := by
    intro hne
    unfold checkTLSA
    rw [hr]
    have hlen : ¬ r.answer.length = 0 := by
      intro h
      exact hne (List.length_eq_zero.mp h)
    simp [hlen, hrc]
  refine ⟨fun hne => by rw [htlsa hne], ?_, ?_⟩
  · intro hnil
    unfold checkTLSA
    rw [hr]
    simp [hnil]
  · intro hne hmx hmem
    have hlen : ¬ mxs.length = 0 := by
      intro h
      rw [List.length_eq_zero.mp h] at hmem
      simp at hmem
    have hany : (mxs.map (checkTLSA w)).any (fun r => r.err.isSome) = true := by
      refine List.any_eq_true.mpr ⟨checkTLSA w mx, List.mem_map_of_mem _ hmem, ?_⟩
      rw [htlsa hne]
      rfl
    unfold checkDANE
    rw [hmx]
    simp [hlen, hany]

/-- C5 amended witness: at the concrete world the DNS error is reported and
the DANE verdict is Temp. -/
theorem c5_amended_dns_error_witness :
    (checkTLSA c5WitnessWorld "mx.t.example").err = some "DNS error"
    ∧ checkDANE c5WitnessWorld "t.example" = ("TEMP", 0) :=
  ⟨(c5_amended_dns_error c5WitnessWorld "t.example" "mx.t.example" ⟨2, true, [RR.tlsa 300]⟩
      ["mx.t.example"] 600 (by decide) (by decide)).1 (by decide),
   (c5_amended_dns_error c5WitnessWorld "t.example" "mx.t.example" ⟨2, true, [RR.tlsa 300]⟩
      ["mx.t.example"] 600 (by decide) (by decide)).2.2 (by decide) (by rfl) (by decide)⟩

/-- Helper: dropping the asterisk of a pattern that starts with `*.`
leaves a pattern starting with a dot, which no longer starts with `*.`. -/
theorem drop_star_no_star (s : List Char) (h : hasPref s "*.".data = true) :
    hasPref (s.drop 1) "*.".data = false := by
  have hd : ("*.".data : List Char) = ['*', '.'] := rfl
  rw [hd] at h ⊢
  match s with
  | [] => simp [hasPref] at h
  | a :: as =>
    simp only [hasPref, Bool.and_eq_true, beq_iff_eq] at h
    obtain ⟨ha, hrest⟩ := h
    match as with
    | [] => simp [hasPref] at hrest
    | b :: bs =>
      simp only [hasPref, Bool.and_eq_true, beq_iff_eq] at hrest
      obtain ⟨hb, _⟩ := hrest
      subst ha hb
      simp [hasPref]

/-- Helper: the entry never starts with `*.`. -/
theorem stsEntry_no_star (line : List Char) : hasPref (stsEntry line) "*.".data = false := by
  unfold stsEntry
  by_cases hstar : hasPref (trimChars ((splitChar ':' line).getD 1 [])) "*.".data = true
  · rw [if_pos hstar]
    exact drop_star_no_star _ hstar
  · rw [if_neg hstar]
    simpa using hstar

/-- Helper: the `mode:` and `max_age:` branches of the line loop leave
`mxServers` unchanged; only an `mx:` line can append its entry. -/
theorem stsLine_mxServers (st : StsParse) (line : List Char) :
    (stsLine st line).mxServers =
      if hasPref line "mx:".data then
        (if st.mxServers.contains (stsEntry line) then st.mxServers
         else st.mxServers ++ [stsEntry line])
      else st.mxServers := by
  unfold stsLine stsEntry
  by_cases h1 : hasPref line "mode:".data = true <;>
  by_cases h2 : hasPref line "max_age:".data = true <;>
  by_cases h3 : hasPref line "mx:".data = true <;>
  rcases hm : parseUint32 (trimChars ((splitChar ':' line).getD 1 [])) with _ | age <;>
  simp [h1, h2, h3, hm] <;>
  split <;> split <;> rfl

/-- Helper: one parser step never stores an `mx` entry that still starts
with `*.`. -/
theorem stsLine_no_star (st : StsParse) (line : List Char)
    (h : ∀ e ∈ st.mxServers, hasPref e "*.".data = false) :
    ∀ e ∈ (stsLine st line).mxServers, hasPref e "*.".data = false := by
  intro e he
  rw [stsLine_mxServers] at he
  by_cases h3 : hasPref line "mx:".data = true
  · rw [if_pos h3] at he
    by_cases hc : st.mxServers.contains (stsEntry line) = true
    · rw [if_pos hc] at he
      exact h e he
    · rw [if_neg hc] at he
      rcases List.mem_append.mp he with he | he
      · exact h e he
      · rw [List.mem_singleton] at he
        subst he
        exact stsEntry_no_star line
  · rw [if_neg h3] at he
    exact h e he

/-- Helper: no entry of the parsed `mx` list starts with `*.`. -/
theorem stsParse_no_star_aux (lines : List (List Char)) :
    ∀ st : StsParse, (∀ e ∈ st.mxServers, hasPref e "*.".data = false) →
      ∀ e ∈ (lines.foldl stsLine st).mxServers, hasPref e "*.".data = false := by
  induction lines with
  | nil => intro st h; simpa using h
  | cons l ls ih => intro st h; exact ih _ (stsLine_no_star st l h)

/-- C6 counterexample: the fetched policy
`mode: enforce\nmx: *.example.com\nmax_age: 86400` renders the directive
`secure match=.example.com servername=hostname` — the `*` is removed but
the dot is kept, so the pattern is not stripped to its bare tail
`example.com` as the claim requires. -/
theorem c6_counterexample :
    generateTlsPolicyMap "mode: enforce\nmx: *.example.com\nmax_age: 86400"
      = ("secure match=.example.com servername=hostname", 86400)
    ∧ ("secure match=.example.com servername=hostname" : String)
      ≠ "secure match=example.com servername=hostname" := by
  constructor
  · rfl
  · decide

/-- C6 amended: on a successful fetch the evaluator's result is
`generateTlsPolicyMap` of the rebuilt body; `mode = enforce` renders
`"secure match=" ++ join(mxs, ":") ++ " servername=hostname"` with TTL
the parsed `max_age`; any other mode yields None; and an `mx` pattern
with a leading `*.` loses only the asterisk, keeping the leading dot, so
no rendered pattern starts with `*.`. -/
theorem c6_mtasts_rendering :
    (∀ (w : DNSWorld) (fetch : String → Option (Nat × String)) (d body : String),
      checkMTASTSRecord w d = Except.ok true →
      fetch ("https://mta-sts." ++ d ++ "/.well-known/mta-sts.txt") = some (200, body) →
      checkMTASTS w fetch d = generateTlsPolicyMap (String.mk (buildPolicyText body.data)))
    ∧ (∀ doc : String, (stsParse doc.data).mode = "enforce".data →
        generateTlsPolicyMap doc
          = (String.mk ("secure match=".data ++ joinChar ':' (stsParse doc.data).mxServers
              ++ " servername=hostname".data), (stsParse doc.data).maxAge))
    ∧ (∀ doc : String, (stsParse doc.data).mode ≠ "enforce".data →
        generateTlsPolicyMap doc = ("", (stsParse doc.data).maxAge))
    ∧ (∀ doc : String, ∀ e ∈ (stsParse doc.data).mxServers, hasPref e "*.".data = false) := by
  refine ⟨?_, ?_, ?_, ?_⟩
  · intro w fetch d body hrec hfetch
    unfold checkMTASTS
    rw [hrec, hfetch]
    simp
  · intro doc hmode
    unfold generateTlsPolicyMap
    rw [if_pos hmode]
  · intro doc hmode
    unfold generateTlsPolicyMap
    rw [if_neg hmode]
  · intro doc
    exact stsParse_no_star_aux _ ⟨[], [], 0⟩ (by simp)

/-- C6 witness: the amended theorem applied at a concrete world and a
concrete enforce-mode document. -/
theorem c6_mtasts_rendering_witness :
    checkMTASTS c6World c6Fetch "sts.example"
      = generateTlsPolicyMap (String.mk (buildPolicyText
          ("version: STSv1\nmode: enforce\nmx: mx1.sts.example\nmax_age: 604800\n" : String).data))
    ∧ generateTlsPolicyMap "mode: enforce\nmx: mx1.sts.example\nmax_age: 604800"
      = (String.mk ("secure match=".data
          ++ joinChar ':' (stsParse ("mode: enforce\nmx: mx1.sts.example\nmax_age: 604800" : String).data).mxServers
          ++ " servername=hostname".data),
         (stsParse ("mode: enforce\nmx: mx1.sts.example\nmax_age: 604800" : String).data).maxAge) :=
  ⟨c6_mtasts_rendering.1 c6World c6Fetch "sts.example"
      "version: STSv1\nmode: enforce\nmx: mx1.sts.example\nmax_age: 604800\n" (by rfl) (by rfl),
   c6_mtasts_rendering.2.1 "mode: enforce\nmx: mx1.sts.example\nmax_age: 604800" (by rfl)⟩

/-- C1 counterexample: when the DANE evaluator returns Temp and the
MTA-STS evaluator returns a positive MTA-STS verdict, the merged verdict
is Temp in both arrival orders — not the MTA-STS verdict the claim
requires. -/
theorem c1_counterexample :
    (queryDomain true "TEMP" 0 "secure match=mx1.sts.example servername=hostname" "" 86400).1
      = "TEMP"
    ∧ (queryDomain false "TEMP" 0 "secure match=mx1.sts.example servername=hostname" "" 86400).1
      = "TEMP"
    ∧ ("TEMP" : String) ≠ "secure match=mx1.sts.example servername=hostname" := by
  refine ⟨rfl, rfl, ?_⟩
  decide

/-- C1 amended: the merged verdict is order-independent and equals the
DANE side's verdict whenever that verdict is non-empty (Dane or Temp),
otherwise the MTA-STS side's verdict (MtaSts, Temp, or None): a DANE
Temp takes precedence over a positive MTA-STS result. -/
theorem c1_merge_precedence (daneFirst : Bool) (dPol : String) (dTtl : Nat)
    (msPol msRpt : String) (msTtl : Nat) :
    queryDomain daneFirst dPol dTtl msPol msRpt msTtl
      = queryDomain true dPol dTtl msPol msRpt msTtl
    ∧ (queryDomain daneFirst dPol dTtl msPol msRpt msTtl).1
      = (if dPol = "" then msPol else dPol) := by
  by_cases hd : dPol = ""
  · by_cases hm : msPol = "" <;>
      cases daneFirst <;>
      simp [queryDomain, mergeLoop, hd, hm]
  · by_cases hm : msPol = "" <;>
      cases daneFirst <;>
      simp [queryDomain, mergeLoop, hd, hm]

/-- C4: TTL normalization of the merged result — a None verdict is cached
for exactly 600 seconds, a Temp verdict for at least 180 seconds, and a
positive verdict for the maximum of the chosen side's TTL and 180
seconds. -/
theorem c4_ttl_normalization (daneFirst : Bool) (dPol : String) (dTtl : Nat)
    (msPol msRpt : String) (msTtl : Nat) :
    ((queryDomain daneFirst dPol dTtl msPol msRpt msTtl).1 = "" →
        (queryDomain daneFirst dPol dTtl msPol msRpt msTtl).2.2 = 600)
    ∧ ((queryDomain daneFirst dPol dTtl msPol msRpt msTtl).1 = "TEMP" →
        180 ≤ (queryDomain daneFirst dPol dTtl msPol msRpt msTtl).2.2)
    ∧ ((queryDomain daneFirst dPol dTtl msPol msRpt msTtl).1 ≠ "" →
        (queryDomain daneFirst dPol dTtl msPol msRpt msTtl).1 ≠ "TEMP" →
        (queryDomain daneFirst dPol dTtl msPol msRpt msTtl).2.2
          = max (if dPol = "" then msTtl else dTtl) 180) := by
  by_cases hd : dPol = ""
  · by_cases hm : msPol = ""
    · cases daneFirst <;> simp [queryDomain, mergeLoop, hd, hm, CACHE_NOTFOUND_TTL, CACHE_MIN_TTL]
    · by_cases htemp : msPol = "TEMP"
      · cases daneFirst <;>
          simp [queryDomain, mergeLoop, hd, hm, htemp, CACHE_NOTFOUND_TTL, CACHE_MIN_TTL]
      · cases daneFirst <;>
          simp [queryDomain, mergeLoop, hd, hm, htemp, CACHE_NOTFOUND_TTL, CACHE_MIN_TTL] <;>
          (try split_ifs) <;> omega
  · by_cases htemp : dPol = "TEMP"
    · cases daneFirst <;>
        by_cases hm : msPol = "" <;>
        simp [queryDomain, mergeLoop, hd, htemp, hm, CACHE_NOTFOUND_TTL, CACHE_MIN_TTL]
    · cases daneFirst <;>
        by_cases hm : msPol = "" <;>
        simp [queryDomain, mergeLoop, hd, htemp, hm, CACHE_NOTFOUND_TTL, CACHE_MIN_TTL] <;>
        (try split_ifs) <;> omega

/-- C4 witness: concrete instances of all three normalization branches —
None cached for 600 s, Temp raised to 180 s, and a positive verdict's
short TTL clamped up to max(60, 180) = 180 s. -/
theorem c4_ttl_normalization_witness :
    (queryDomain true "" 0 "" "" 0).2.2 = 600
    ∧ 180 ≤ (queryDomain true "TEMP" 0 "" "" 0).2.2
    ∧ (queryDomain true "dane" 60 "" "" 0).2.2 = max 60 180 :=
  ⟨(c4_ttl_normalization true "" 0 "" "" 0).1 (by decide),
   (c4_ttl_normalization true "TEMP" 0 "" "" 0).2.1 (by decide),
   by
    have h := (c4_ttl_normalization true "dane" 60 "" "" 0).2.2 (by decide) (by decide)
    simpa using h⟩

/-- Helper: a bit as a conditional equals the mod-2 value. -/
theorem condBit (n : Nat) : cond (n % 2 == 1) 1 0 = n % 2 := by
  rcases Nat.mod_two_eq_zero_or_one n with h | h <;> simp [h]

/-- Helper: on one full 5-byte group, the Go shift encoder agrees with
the bit-group encoder. -/
theorem goEncGroup_full (b0 b1 b2 b3 b4 : Nat)
    (h0 : b0 < 256) (h1 : b1 < 256) (h2 : b2 < 256) (h3 : b3 < 256) (h4 : b4 < 256) :
    goEncGroup b0 b1 b2 b3 b4
      = (fiveChunks (byteBits b0 ++ (byteBits b1 ++ (byteBits b2
          ++ (byteBits b3 ++ byteBits b4))))).map (fun c => b32Char (bitsVal c)) := by
  simp only [byteBits, List.cons_append, List.nil_append, fiveChunks, List.map_cons, List.map_nil,
    bitsVal, List.foldl, condBit, goEncGroup, List.cons.injEq, and_true]
  refine ⟨?_, ?_, ?_, ?_, ?_, ?_, ?_, ?_⟩ <;> (congr 1; omega)

set_option maxHeartbeats 1000000 in
/-- Helper: the Go `encoding/base32` no-padding encoder agrees with the
specification-level bit-grouping encoder on every byte sequence. -/
theorem goBase32_eq_base32NoPad : ∀ bs : List Nat, (∀ b ∈ bs, b < 256) →
    goBase32 bs = base32NoPad bs
  | [], _ => rfl
  | [b0], h => by
    have h0 := h b0 (by simp)
    simp only [goBase32, base32NoPad, List.flatMap_cons, List.flatMap_nil, List.append_nil,
      byteBits, List.cons_append, List.nil_append, fiveChunks, List.map_cons, List.map_nil,
      goEncGroup, List.take, List.cons.injEq, and_true]
    refine ⟨?_, ?_⟩ <;> (congr 1; simp only [bitsVal, List.foldl, condBit, Bool.cond_false]; omega)
  | [b0, b1], h => by
    have h0 := h b0 (by simp)
    have h1 := h b1 (by simp)
    simp only [goBase32, base32NoPad, List.flatMap_cons, List.flatMap_nil, List.append_nil,
      byteBits, List.cons_append, List.nil_append, fiveChunks, List.map_cons, List.map_nil,
      goEncGroup, List.take, List.cons.injEq, and_true]
    refine ⟨?_, ?_, ?_, ?_⟩ <;>
      (congr 1; simp only [bitsVal, List.foldl, condBit, Bool.cond_false]; omega)
  | [b0, b1, b2], h => by
    have h0 := h b0 (by simp)
    have h1 := h b1 (by simp)
    have h2 := h b2 (by simp)
    simp only [goBase32, base32NoPad, List.flatMap_cons, List.flatMap_nil, List.append_nil,
      byteBits, List.cons_append, List.nil_append, fiveChunks, List.map_cons, List.map_nil,
      goEncGroup, List.take, List.cons.injEq, and_true]
    refine ⟨?_, ?_, ?_, ?_, ?_⟩ <;>
      (congr 1; simp only [bitsVal, List.foldl, condBit, Bool.cond_false]; omega)
  | [b0, b1, b2, b3], h => by
    have h0 := h b0 (by simp)
    have h1 := h b1 (by simp)
    have h2 := h b2 (by simp)
    have h3 := h b3 (by simp)
    simp only [goBase32, base32NoPad, List.flatMap_cons, List.flatMap_nil, List.append_nil,
      byteBits, List.cons_append, List.nil_append, fiveChunks, List.map_cons, List.map_nil,
      goEncGroup, List.take, List.cons.injEq, and_true]
    refine ⟨?_, ?_, ?_, ?_, ?_, ?_, ?_⟩ <;>
      (congr 1; simp only [bitsVal, List.foldl, condBit, Bool.cond_false]; omega)
  | b0 :: b1 :: b2 :: b3 :: b4 :: rest, h => by
    have ih := goBase32_eq_base32NoPad rest (fun b hb => h b (by simp [hb]))
    have h0 := h b0 (by simp)
    have h1 := h b1 (by simp)
    have h2 := h b2 (by simp)
    have h3 := h b3 (by simp)
    have h4 := h b4 (by simp)
    simp only [base32NoPad] at ih
    simp only [goBase32, base32NoPad, List.flatMap_cons, byteBits, List.cons_append,
      List.nil_append, fiveChunks, List.map_cons, goEncGroup, List.cons.injEq]
    refine ⟨?_, ?_, ?_, ?_, ?_, ?_, ?_, ?_, ih⟩
    all_goals (congr 1; simp only [bitsVal, List.foldl, condBit, Bool.cond_false]; omega)

/-- Helper: every byte of a SHA-256 digest is below 256. -/
theorem sha256_bytes_lt (msg : List Nat) : ∀ b ∈ sha256 msg, b < 256 := by
  unfold sha256
  intro b hb
  simp only [List.mem_flatMap] at hb
  obtain ⟨w, _, hbw⟩ := hb
  simp only [wordBytes, List.mem_cons, List.not_mem_nil, or_false] at hbw
  rcases hbw with h | h | h | h <;> subst h <;> exact Nat.mod_lt _ (by norm_num)

/-- C8: the cache key is `"TLSPOL-"` followed by the unpadded upper-case
base32 encoding of the SHA-256 digest of the domain (checked against a
known-answer vector), and because the server lower-cases the trimmed
domain before keying, two inputs differing only in ASCII case produce
the same key. -/
theorem c8_cache_key_determinism :
    (∀ d : String, getCacheKey d = "TLSPOL-" ++ String.mk (base32NoPad (sha256 (strBytes d))))
    ∧ getCacheKey "example.com"
        = "TLSPOL-UN42N5XOV642KXRXRQIYANHCOUPGQL5LT4WTBKYT2IJFLBWODFDQ"
    ∧ (∀ d1 d2 : String, trimChars d1.data = d1.data → trimChars d2.data = d2.data →
        d1.data.map Char.toLower = d2.data.map Char.toLower →
        getCacheKey (normalizeDomain d1) = getCacheKey (normalizeDomain d2)) := by
  refine ⟨?_, by decide, ?_⟩
  · intro d
    unfold getCacheKey
    rw [goBase32_eq_base32NoPad _ (sha256_bytes_lt _)]
  · intro d1 d2 h1 h2 h
    unfold normalizeDomain
    rw [h1, h2, h]

/-- C8 witness: `"Example.COM"` and `"example.com"` differ only in ASCII
case and receive the same cache key. -/
theorem c8_cache_key_determinism_witness :
    trimChars ("Example.COM" : String).data = ("Example.COM" : String).data
    ∧ ("Example.COM" : String).data.map Char.toLower
        = ("example.com" : String).data.map Char.toLower
    ∧ getCacheKey (normalizeDomain "Example.COM") = getCacheKey (normalizeDomain "example.com") :=
  ⟨by decide, by decide,
   c8_cache_key_determinism.2.2 "Example.COM" "example.com" (by decide) (by decide) (by decide)⟩

/-- C9: with the jitter below 60 and no 32-bit wrap-around, the backend
expiry `ttl + prefetch_margin - jitter` lies between
`ttl + prefetch_margin - 60` and `ttl + prefetch_margin`. -/
theorem c9_cache_jitter_bound (prefetchMargin ttl jitter : Nat)
    (hj : jitter < 60) (hlo : 60 ≤ ttl + prefetchMargin)
    (hhi : ttl + prefetchMargin < 4294967296) :
    ttl + prefetchMargin - 60 ≤ cacheExpirySeconds prefetchMargin ttl jitter
    ∧ cacheExpirySeconds prefetchMargin ttl jitter ≤ ttl + prefetchMargin := by
  unfold cacheExpirySeconds
  have h1 : (ttl + prefetchMargin) % 4294967296 = ttl + prefetchMargin := Nat.mod_eq_of_lt hhi
  have h2 : jitter % 4294967296 = jitter := Nat.mod_eq_of_lt (by omega)
  rw [h1, h2]
  omega

/-- C9 witness: a cached TTL of 600 s, a prefetch margin of 300 s and the
maximal jitter 59 s. -/
theorem c9_cache_jitter_bound_witness :
    600 + 300 - 60 ≤ cacheExpirySeconds 300 600 59
    ∧ cacheExpirySeconds 300 600 59 ≤ 600 + 300 :=
  c9_cache_jitter_bound 300 600 59 (by decide) (by decide) (by decide)

/-- C7: an unknown command is answered with the netstring-framed payload
`"PERM "` and the connection closes; a frame without an argument part is
answered `"NOTFOUND "` with the connection left open; and an invalid
domain (IP literal, leading dot, or failing the DNS-name check) is
answered `"NOTFOUND "` without the cache being consulted.  The DNS-name
validator is assumed to reject names with a leading dot, as
govalidator's `IsDNSName` does. -/
theorem c7_protocol_errors (v : Validators) (cfgTlsRpt redisDisable : Bool)
    (hdot : ∀ s : String, hasPref s.data ".".data = true → v.isDNSName s = false) :
    (∀ frame : String,
      cmdOf frame ≠ "QUERYWITHTLSRPT" → cmdOf frame ≠ "QUERY" → cmdOf frame ≠ "JSON" →
      handleFrame v cfgTlsRpt redisDisable frame
        = ⟨some (nsMarshal "PERM "), true, false, false, none, none⟩)
    ∧ (∀ frame : String,
      (splitN2 frame).length ≠ 2 →
      (cmdOf frame = "QUERYWITHTLSRPT" ∨ cmdOf frame = "QUERY" ∨ cmdOf frame = "JSON") →
      handleFrame v cfgTlsRpt redisDisable frame
        = ⟨some (nsMarshal "NOTFOUND "), false, false, false, none, none⟩)
    ∧ (∀ frame : String,
      (splitN2 frame).length = 2 →
      (cmdOf frame = "QUERYWITHTLSRPT" ∨ cmdOf frame = "QUERY") →
      (v.isIPv4 (normalizeDomain (argOf frame)) = true
        ∨ v.isIPv6 (normalizeDomain (argOf frame)) = true
        ∨ hasPref (normalizeDomain (argOf frame)).data ".".data = true
        ∨ v.isDNSName (normalizeDomain (argOf frame)) = false) →
      handleFrame v cfgTlsRpt redisDisable frame
        = ⟨some (nsMarshal "NOTFOUND "), false, false, false, none, none⟩) := by
  refine ⟨?_, ?_, ?_⟩
  · intro frame h1 h2 h3
    unfold cmdOf at h1 h2 h3
    unfold handleFrame
    rw [if_pos ⟨h1, h2, h3⟩]
  · intro frame hlen hcmd
    unfold cmdOf at hcmd
    unfold handleFrame
    rw [if_neg (by tauto), if_pos hlen]
  · intro frame hlen hcmd hinv
    unfold cmdOf at hcmd
    unfold argOf at hinv
    unfold handleFrame
    rw [if_neg (by tauto), if_neg (by simp [hlen])]
    have hjson : ¬ toUpperStr ((splitN2 frame).headD "") = "JSON" := by
      rcases hcmd with h | h <;> rw [h] <;> decide
    rw [if_neg hjson]
    by_cases h4 : v.isIPv4 (normalizeDomain ((splitN2 frame).getD 1 "")) = true
    · rw [if_pos h4]
    · rw [if_neg (by simpa using h4)]
      by_cases h6 : v.isIPv6 (normalizeDomain ((splitN2 frame).getD 1 "")) = true
      · rw [if_pos h6]
      · rw [if_neg (by simpa using h6)]
        by_cases hdotcase :
          hasPref (normalizeDomain ((splitN2 frame).getD 1 "")).data ".".data = true
          ∧ v.isDNSName
              (String.mk ((normalizeDomain ((splitN2 frame).getD 1 "")).data.drop 1)) = true
        · rw [if_pos (by simpa using hdotcase)]
        · rw [if_neg (by simpa using hdotcase)]
          have hdns : v.isDNSName (normalizeDomain ((splitN2 frame).getD 1 "")) = false := by
            rcases hinv with h | h | h | h
            · exact absurd h h4
            · exact absurd h h6
            · exact hdot _ h
            · exact h
          rw [if_pos (by
            simp only [List.getD, List.get?_eq_getElem?] at hdns
            simp [hdns])]

/-- C7 witness: concrete instances of the three protocol-error replies. -/
theorem c7_protocol_errors_witness :
    handleFrame vRefuse false false "FOO bar"
      = ⟨some (nsMarshal "PERM "), true, false, false, none, none⟩
    ∧ handleFrame vRefuse false false "QUERY"
      = ⟨some (nsMarshal "NOTFOUND "), false, false, false, none, none⟩
    ∧ handleFrame vRefuse false false "QUERY 192.0.2.1"
      = ⟨some (nsMarshal "NOTFOUND "), false, false, false, none, none⟩ :=
  ⟨(c7_protocol_errors vRefuse false false (fun _ _ => rfl)).1 "FOO bar"
      (by decide) (by decide) (by decide),
   (c7_protocol_errors vRefuse false false (fun _ _ => rfl)).2.1 "QUERY"
      (by decide) (Or.inr (Or.inl (by decide))),
   (c7_protocol_errors vRefuse false false (fun _ _ => rfl)).2.2 "QUERY 192.0.2.1"
      (by decide) (Or.inr (by decide)) (Or.inr (Or.inr (Or.inr rfl)))⟩

/-- C10: a `JSON` frame with an argument part dispatches to `replyJson`
with the normalized raw argument before any domain validation — the
outcome does not depend on the validators at all — and with no cache
read, no cache write, and no resolve-and-cache path. -/
theorem c10_json_dispatch (v v2 : Validators) (cfgTlsRpt redisDisable : Bool) (frame : String)
    (hcmd : cmdOf frame = "JSON") (hlen : (splitN2 frame).length = 2) :
    handleFrame v cfgTlsRpt redisDisable frame
      = ⟨none, false, false, false, some (normalizeDomain (argOf frame)), none⟩
    ∧ handleFrame v cfgTlsRpt redisDisable frame
      = handleFrame v2 cfgTlsRpt redisDisable frame := by
  have hmain : ∀ v' : Validators, handleFrame v' cfgTlsRpt redisDisable frame
      = ⟨none, false, false, false, some (normalizeDomain (argOf frame)), none⟩ := by
    intro v'
    unfold cmdOf at hcmd
    unfold argOf
    unfold handleFrame
    rw [if_neg (by rw [hcmd]; simp), if_neg (by simp [hlen]), if_pos hcmd]
  exact ⟨hmain v, by rw [hmain v, hmain v2]⟩

/-- C10 witness: a `JSON` frame carrying an IP literal dispatches to
`replyJson` untouched by validation and cache, under either validator. -/
theorem c10_json_dispatch_witness :
    handleFrame vAccept true false "JSON 192.0.2.1"
      = ⟨none, false, false, false, some (normalizeDomain (argOf "JSON 192.0.2.1")), none⟩
    ∧ handleFrame vAccept true false "JSON 192.0.2.1"
      = handleFrame vRefuse true false "JSON 192.0.2.1" :=
  c10_json_dispatch vAccept vRefuse true false "JSON 192.0.2.1" (by decide) (by decide)

end TlsPol
